import Mathlib

/-!
Verification development for the flintcli test executor.

The definitions below are a shallow embedding of `src/executor.rs` (the
scheduler `run_tests_parallel` and the action interpreter `execute_action`)
and of the backend query surface of `src/bot.rs`.  Backend commands are
modelled structurally (inductive `Cmd`) together with a renderer
`renderCmd` that produces exactly the text the Rust code formats; backend
state queries are modelled by an oracle (`Backend`) giving the
debug-formatted block state at each world position, matching
`TestBot::get_block` and `TestBot::get_block_state_property`.

Machine integers: positions are `i32` triples; `i32` addition in release
mode wraps, which `wrap32` makes explicit over `Int`.
-/

/-- 3D integer position, the Rust type `[i32; 3]`. -/
abbrev Pos3 : Type := Int × Int × Int

/-- Wrap an integer into the i32 range (wrapping two-complement semantics of
release-mode Rust `i32` arithmetic). -/
def wrap32 (x : Int) : Int := (x + 2147483648) % 4294967296 - 2147483648

/-- Release-mode Rust `i32` addition: add, then wrap. -/
def addI32 (a b : Int) : Int := wrap32 (a + b)

/-- Embedding of `TestExecutor::apply_offset` (executor.rs lines 18-24):
element-wise `i32` addition of `offset` onto `pos`. -/
def apply_offset (pos offset : Pos3) : Pos3 :=
  (addI32 pos.1 offset.1, addI32 pos.2.1 offset.2.1, addI32 pos.2.2 offset.2.2)

/-- Lower-case every character (Rust `str::to_lowercase` on ASCII
identifiers). -/
def lowerS (s : String) : String := String.mk (s.data.map Char.toLower)

/-- Remove every underscore (Rust `str::replace("_", "")`). -/
def stripUnders (s : String) : String :=
  String.mk (s.data.filter (fun c => c != '_'))

/-- Contiguous-sublist test on character lists; `isSubListOf n h` holds when
`n` occurs contiguously inside `h`. -/
def isSubListOf (needle : List Char) : List Char → Bool
  | [] => needle.isEmpty
  | c :: t => needle.isPrefixOf (c :: t) || isSubListOf needle t

/-- Rust `hay.contains(needle)`: substring containment. -/
def containsSub (hay needle : String) : Bool := isSubListOf needle.data hay.data

/-- Remove leading copies of `p` from `s` while `s` starts with `p`; the
fuel argument bounds the number of removals (library-level: removing a
nonempty pattern shortens the list, so `s.length` rounds of fuel always
suffice). -/
def dropCopies (p : List Char) : Nat → List Char → List Char
  | 0, s => s
  | n + 1, s =>
    if p.isPrefixOf s && !p.isEmpty then dropCopies p n (s.drop p.length) else s

/-- Rust `str::trim_start_matches(p)`: repeatedly strip the pattern `p` from
the front. -/
def trimStartMatchesS (p s : String) : String :=
  String.mk (dropCopies p.data s.data.length s.data)

/-- One check of an `Assert` entry (Rust struct with fields `pos` and `is`). -/
structure BlockCheck where
  pos : Pos3
  is : String
deriving DecidableEq

/-- One element of a `PlaceEach` list (fields `pos` and `block`). -/
structure Placement where
  pos : Pos3
  block : String
deriving DecidableEq

/-- Modelled from the spec: the closed action variant type `ActionType`
(declared in src/test_spec.rs, which is not among the given sources); the
variants and their fields are exactly the ones `execute_action` in
executor.rs matches on.  The Rust field `with` of `Fill` is named
`withBlock` because `with` is reserved in Lean. -/
inductive ActionType where
  | place (pos : Pos3) (block : String)
  | placeEach (blocks : List Placement)
  | fill (region : Pos3 × Pos3) (withBlock : String)
  | remove (pos : Pos3)
  | assert (checks : List BlockCheck)
  | assertState (pos : Pos3) (state : String) (values : List String)
deriving DecidableEq

/-- Modelled from the spec: `TimelineEntry` (src/test_spec.rs): the list of
firing ticks `at` (named `atTicks`, since `at` is reserved in Lean) and the
action shape. -/
structure TimelineEntry where
  atTicks : List Nat
  action_type : ActionType
deriving DecidableEq

/-- Modelled from the spec: `TestSpec` (src/test_spec.rs): name, optional
description, ordered timeline, and the cleanup region (pair of corners);
`cleanup_region()` is the field accessor. -/
structure TestSpec where
  name : String
  description : Option String
  timeline : List TimelineEntry
  cleanup_region : Pos3 × Pos3
deriving DecidableEq

/-- Modelled from the spec: `TestSpec::max_tick` — the maximum tick value
referenced by the timeline (0 for an empty timeline). -/
def TestSpec.max_tick (t : TestSpec) : Nat :=
  t.timeline.foldl (fun m e => e.atTicks.foldl (fun m2 x => max m2 x) m) 0

/-- Backend world oracle: the debug-formatted block state at each world
position (`None` when the chunk holds no state there), abstracting the
azalea world read in bot.rs. -/
structure Backend where
  blockDebug : Pos3 → Option String

/-- Embedding of `TestBot::get_block` (bot.rs lines 129-150): return the
debug string of the block state at `pos`, or `None` when absent. -/
def Backend.get_block (b : Backend) (pos : Pos3) : Option String :=
  b.blockDebug pos

/-- Embedding of `TestBot::get_block_state_property` (bot.rs lines 152-181):
return the full state string when it contains the text `property ++ ": "`,
otherwise `None`. -/
def Backend.get_block_state_property (b : Backend) (pos : Pos3) (property : String) :
    Option String :=
  match b.blockDebug pos with
  | some s => if containsSub s (property ++ ": ") then some s else none
  | none => none

/-- Backend commands, modelled structurally; `renderCmd` gives the exact
text the Rust code formats. -/
inductive Cmd where
  | fill (a b : Pos3) (block : String)
  | setblock (p : Pos3) (block : String)
  | tickFreeze
  | tickUnfreeze
  | tickStep (n : Nat)
deriving DecidableEq

/-- Render the three coordinates of a position separated by spaces. -/
def posStr (p : Pos3) : String :=
  toString p.1 ++ " " ++ toString p.2.1 ++ " " ++ toString p.2.2

/-- Text of each command exactly as the Rust `format!` calls produce it. -/
def renderCmd : Cmd → String
  | .fill a b blk => "fill " ++ posStr a ++ " " ++ posStr b ++ " " ++ blk
  | .setblock p blk => "setblock " ++ posStr p ++ " " ++ blk
  | .tickFreeze => "tick freeze"
  | .tickUnfreeze => "tick unfreeze"
  | .tickStep n => "tick step " ++ toString n

/-- Outcome of `execute_action`: Rust `Result<bool>` plus the panic case of
an out-of-bounds index.  `Ok(true)` is `passed`, `Ok(false)` is `neutral`,
`Err(msg)` is `failed msg`. -/
inductive Outcome where
  | passed
  | neutral
  | failed (msg : String)
  | panicked
deriving DecidableEq

/-- Rust `format!("{:?}", opt)` for an `Option<String>`. -/
def reprOptStr : Option String → String
  | none => "None"
  | some s => "Some(\"" ++ s ++ "\")"

/-- Failure diagnostic of an `Assert` check (executor.rs lines 399-407),
naming the test-local position, the expected identifier and the actual
queried value. -/
def assertFailMsg (pos : Pos3) (expected : String) (actual : Option String) : String :=
  "Block at [" ++ toString pos.1 ++ ", " ++ toString pos.2.1 ++ ", " ++
    toString pos.2.2 ++ "] is not " ++ expected ++ " (got " ++ reprOptStr actual ++ ")"

/-- Failure diagnostic of an `AssertState` check (executor.rs lines 439-448). -/
def assertStateFailMsg (pos : Pos3) (state expected : String) (actual : Option String) :
    String :=
  "Block at [" ++ toString pos.1 ++ ", " ++ toString pos.2.1 ++ ", " ++
    toString pos.2.2 ++ "] state " ++ state ++ " is not " ++ expected ++
    " (got " ++ reprOptStr actual ++ ")"

/-- Embedding of the per-check comparison inside the `Assert` arm
(executor.rs lines 378-386): strip the `minecraft:` namespace from the
expected identifier, lower-case both, remove underscores from the expected
side, and test whether the expected text occurs in the actual text (with or
without the underscores of the actual side). -/
def assertCheckSuccess (expected : String) (actual_block : Option String) : Bool :=
  let expected_name := trimStartMatchesS "minecraft:" expected
  match actual_block with
  | some actual =>
    let actual_lower := lowerS actual
    let expected_lower := stripUnders (lowerS expected_name)
    containsSub actual_lower expected_lower ||
      containsSub (stripUnders actual_lower) expected_lower
  | none => false

/-- Embedding of the `for check in checks` loop of the `Assert` arm
(executor.rs lines 374-408): the first failing check aborts the entry with
its diagnostic; the entry passes when every check succeeds. -/
def assertLoop (bot : Backend) (offset : Pos3) : List BlockCheck → Outcome
  | [] => .passed
  | c :: rest =>
    let world_pos := apply_offset c.pos offset
    let actual_block := bot.get_block world_pos
    if assertCheckSuccess c.is actual_block then assertLoop bot offset rest
    else .failed (assertFailMsg c.pos c.is actual_block)

/-- Embedding of `TestExecutor::execute_action` (executor.rs lines 290-451):
interpretation of one action, returning the outcome and the list of backend
commands sent.  The out-of-bounds list index of the `AssertState` arm
(`values[value_idx]`) is the Rust panic, modelled as `Outcome.panicked`. -/
def executeAction (bot : Backend) (entry : TimelineEntry) (value_idx : Nat)
    (offset : Pos3) : Outcome × List Cmd :=
  match entry.action_type with
  | .place pos block =>
    (.neutral, [.setblock (apply_offset pos offset) block])
  | .placeEach blocks =>
    (.neutral, blocks.map (fun pl => Cmd.setblock (apply_offset pl.pos offset) pl.block))
  | .fill region withBlock =>
    (.neutral,
      [.fill (apply_offset region.1 offset) (apply_offset region.2 offset) withBlock])
  | .remove pos =>
    (.neutral, [.setblock (apply_offset pos offset) "air"])
  | .assert checks =>
    (assertLoop bot offset checks, [])
  | .assertState pos state values =>
    let world_pos := apply_offset pos offset
    let actual_value := bot.get_block_state_property world_pos state
    match values.get? value_idx with
    | none => (.panicked, [])
    | some expected_value =>
      let success := match actual_value with
        | some actual => containsSub actual expected_value
        | none => false
      if success then (.passed, [])
      else (.failed (assertStateFailMsg pos state expected_value actual_value), [])

/-- Result of one test (executor.rs lines 454-462): name, passed and failed
counters, and the derived success flag. -/
structure TestResult where
  test_name : String
  passed : Nat
  failed : Nat
  success : Bool
deriving DecidableEq

/-- Placeholder spec used by total list lookups; every lookup the scheduler
performs is proved in range (`scheduleList_ti_lt`, `scheduleList_ei_lt`), so
the placeholder is never the value actually read, mirroring the panicking
Rust index which likewise never fires. -/
def dfltSpec : TestSpec := ⟨"", none, [], ((0, 0, 0), (0, 0, 0))⟩

/-- Placeholder timeline entry for total lookups (see `dfltSpec`). -/
def dfltEntry : TimelineEntry := ⟨[], .remove (0, 0, 0)⟩

/-- Embedding of the timeline-building loop of `run_tests_parallel`
(executor.rs lines 34-53) flattened in push order: for each test (in
enumeration order), for each entry (in declaration order), for each
occurrence (index, tick) of its `at` list, one element
`(tick, test_idx, entry_idx, value_idx)`.  The Rust map stores the entry
reference itself; the embedding addresses it by its declaration index,
which `bucketAt` resolves back through the test list. -/
def scheduleList (tests : List (TestSpec × Pos3)) : List (Nat × Nat × Nat × Nat) :=
  (tests.enum.flatMap (fun p =>
    (p.2.1.timeline.enum.flatMap (fun e =>
      (e.2.atTicks.enum.map (fun v => (v.2, p.1, e.1, v.1)))))))

/-- Per-tick bucket of the global timeline: the schedule elements due at
tick `t`, in push order — exactly the `Vec` the Rust `HashMap` holds under
key `t`, since `entry(t).push` preserves per-key push order. -/
def bucketAt (tests : List (TestSpec × Pos3)) (t : Nat) : List (Nat × Nat × Nat) :=
  ((scheduleList tests).filter (fun q => q.1 == t)).map (fun q => q.2)

/-- Embedding of the `max_global_tick` computation (executor.rs lines
35-41): running maximum of the tests `max_tick` values, starting at 0. -/
def maxGlobalTick (tests : List (TestSpec × Pos3)) : Nat :=
  tests.foldl (fun m p => max m p.1.max_tick) 0

/-- The pre- and post-run cleanup command of one test (executor.rs lines
58-70 and 119-131): fill the translated cleanup region with `air`. -/
def cleanCmd (p : TestSpec × Pos3) : Cmd :=
  .fill (apply_offset p.1.cleanup_region.1 p.2) (apply_offset p.1.cleanup_region.2 p.2) "air"

/-- Increment the passed counter of test `i` (executor.rs line 89). -/
def bumpPassed (st : List (Nat × Nat)) (i : Nat) : List (Nat × Nat) :=
  st.set i ((st.getD i (0, 0)).1 + 1, (st.getD i (0, 0)).2)

/-- Increment the failed counter of test `i` (executor.rs line 95). -/
def bumpFailed (st : List (Nat × Nat)) (i : Nat) : List (Nat × Nat) :=
  st.set i ((st.getD i (0, 0)).1, (st.getD i (0, 0)).2 + 1)

/-- Embedding of one iteration of the per-tick entry loop (executor.rs
lines 84-104): resolve the owning test and entry, run the action, and
update only the counters of the owner; a passed assertion bumps `passed`, a
failure bumps `failed`, a neutral action changes nothing, and a panic
aborts the whole run (`none`). -/
def stepEntry (bot : Backend) (tests : List (TestSpec × Pos3)) (q : Nat × Nat × Nat)
    (st : List (Nat × Nat)) : Option (List (Nat × Nat) × List Cmd) :=
  let tp := tests.getD q.1 (dfltSpec, (0, 0, 0))
  let entry := tp.1.timeline.getD q.2.1 dfltEntry
  match executeAction bot entry q.2.2 tp.2 with
  | (.passed, cmds) => some (bumpPassed st q.1, cmds)
  | (.neutral, cmds) => some (st, cmds)
  | (.failed _, cmds) => some (bumpFailed st q.1, cmds)
  | (.panicked, _) => none

/-- Run every entry of one tick bucket in order, threading the counters and
concatenating the commands sent. -/
def runBucket (bot : Backend) (tests : List (TestSpec × Pos3)) :
    List (Nat × Nat × Nat) → List (Nat × Nat) → Option (List (Nat × Nat) × List Cmd)
  | [], st => some (st, [])
  | q :: qs, st =>
    match stepEntry bot tests q st with
    | none => none
    | some (st', cmds) =>
      match runBucket bot tests qs st' with
      | none => none
      | some (st'', rest) => some (st'', cmds ++ rest)

/-- Commands of one iteration of the tick loop (executor.rs lines 82-114):
the bucket of the current tick, then one `tick step 1` exactly when more
ticks remain. -/
def runTick (bot : Backend) (tests : List (TestSpec × Pos3)) (maxT : Nat)
    (st : List (Nat × Nat)) (t : Nat) : Option (List (Nat × Nat) × List Cmd) :=
  match runBucket bot tests (bucketAt tests t) st with
  | none => none
  | some (st', cmds) =>
    some (st', cmds ++ (if t < maxT then [Cmd.tickStep 1] else []))

/-- The tick loop over a list of tick numbers, returning the final counters
and the per-tick command segments. -/
def tickLoop (bot : Backend) (tests : List (TestSpec × Pos3)) (maxT : Nat) :
    List Nat → List (Nat × Nat) → Option (List (Nat × Nat) × List (List Cmd))
  | [], st => some (st, [])
  | t :: ts, st =>
    match runTick bot tests maxT st t with
    | none => none
    | some (st', cmds) =>
      match tickLoop bot tests maxT ts st' with
      | none => none
      | some (st'', segs) => some (st'', cmds :: segs)

/-- The whole tick phase: loop over `[0, max_global_tick]` inclusive
starting from all-zero counters. -/
def tickSegs (bot : Backend) (tests : List (TestSpec × Pos3)) :
    Option (List (Nat × Nat) × List (List Cmd)) :=
  tickLoop bot tests (maxGlobalTick tests)
    (List.range (maxGlobalTick tests + 1))
    (List.replicate tests.length (0, 0))

/-- Result construction (executor.rs lines 135-162): one `TestResult` per
test in original order, with `success = (failed == 0)`. -/
def buildResults (tests : List (TestSpec × Pos3)) (st : List (Nat × Nat)) :
    List TestResult :=
  tests.enum.map (fun p =>
    let c := st.getD p.1 (0, 0)
    ⟨p.2.1.name, c.1, c.2, c.2 == 0⟩)

/-- Embedding of `TestExecutor::run_tests_parallel` (executor.rs lines
30-165): pre-run cleanup fills (one per test, in order), `tick freeze`, the
tick loop, `tick unfreeze`, post-run cleanup fills, and the final results.
`none` models a panic unwinding out of the run (the only panic is the
`AssertState` index, see `executeAction`); command transmission itself is
infallible here, so a `some` value is exactly a completed run. -/
def runTestsParallel (bot : Backend) (tests : List (TestSpec × Pos3)) :
    Option (List Cmd × List TestResult) :=
  match tickSegs bot tests with
  | none => none
  | some (st, segs) =>
    some (tests.map cleanCmd ++ [Cmd.tickFreeze] ++ segs.flatten ++
      [Cmd.tickUnfreeze] ++ tests.map cleanCmd, buildResults tests st)

/-- List lookup with default agrees with indexing when in range. -/
lemma getD_eq_getElem {α : Type} (l : List α) (d : α) {i : Nat} (h : i < l.length) :
    l.getD i d = l[i] := by
  simp [List.getD_eq_getElem?_getD, List.getElem?_eq_getElem h]

/-- Membership of the i32 range. -/
def inI32 (x : Int) : Prop := -2147483648 ≤ x ∧ x < 2147483648

/-- Release-mode Rust `i32` subtraction: subtract, then wrap. -/
def subI32 (a b : Int) : Int := wrap32 (a - b)

/-- Wrapping is the identity on the i32 range. -/
lemma wrap32_of_inI32 {x : Int} (h : inI32 x) : wrap32 x = x := by
  obtain ⟨h1, h2⟩ := h
  unfold wrap32
  omega

/-- Wrapping subtraction undoes wrapping addition on i32 inputs. -/
lemma subI32_addI32 {p o : Int} (hp : inI32 p) (ho : inI32 o) :
    subI32 (addI32 p o) o = p := by
  obtain ⟨h1, h2⟩ := hp
  obtain ⟨h3, h4⟩ := ho
  unfold subI32 addI32 wrap32
  omega

/-- C8, counterexample: at `pos = [2147483647, 0, 0]` and
`offset = [1, 0, 0]` the first axis overflows `i32`, so `apply_offset` wraps
to `-2147483648` instead of the exact element-wise sum `2147483648`. -/
theorem c8_counterexample :
    apply_offset (2147483647, 0, 0) (1, 0, 0) = (-2147483648, 0, 0) ∧
    apply_offset (2147483647, 0, 0) (1, 0, 0) ≠
      ((2147483647 : Int) + 1, (0 : Int) + 0, (0 : Int) + 0) := by
  constructor
  · decide
  · decide

/-- C8, amended: `apply_offset` is the element-wise wrapping (`i32`) sum;
whenever every axis sum stays in the i32 range it equals the exact
element-wise sum, and element-wise wrapping subtraction of the offset
recovers `pos` exactly for all i32 inputs. -/
theorem c8_offset_roundtrip (pos offset : Pos3)
    (hp1 : inI32 pos.1) (hp2 : inI32 pos.2.1) (hp3 : inI32 pos.2.2)
    (ho1 : inI32 offset.1) (ho2 : inI32 offset.2.1) (ho3 : inI32 offset.2.2) :
    apply_offset pos offset =
      (wrap32 (pos.1 + offset.1), wrap32 (pos.2.1 + offset.2.1),
        wrap32 (pos.2.2 + offset.2.2)) ∧
    ((inI32 (pos.1 + offset.1) ∧ inI32 (pos.2.1 + offset.2.1) ∧
        inI32 (pos.2.2 + offset.2.2)) →
      apply_offset pos offset =
        (pos.1 + offset.1, pos.2.1 + offset.2.1, pos.2.2 + offset.2.2)) ∧
    (subI32 (apply_offset pos offset).1 offset.1,
      subI32 (apply_offset pos offset).2.1 offset.2.1,
      subI32 (apply_offset pos offset).2.2 offset.2.2) = pos := by
  refine ⟨rfl, ?_, ?_⟩
  · rintro ⟨h1, h2, h3⟩
    unfold apply_offset addI32
    rw [wrap32_of_inI32 h1, wrap32_of_inI32 h2, wrap32_of_inI32 h3]
  · show (subI32 (addI32 pos.1 offset.1) offset.1,
      subI32 (addI32 pos.2.1 offset.2.1) offset.2.1,
      subI32 (addI32 pos.2.2 offset.2.2) offset.2.2) = pos
    rw [subI32_addI32 hp1 ho1, subI32_addI32 hp2 ho2, subI32_addI32 hp3 ho3]

/-- Witness for `c8_offset_roundtrip` at `pos = [3, 4, 5]`,
`offset = [10, 20, 30]`. -/
theorem c8_offset_roundtrip_witness :
    inI32 (3 : Int) ∧
    (subI32 (apply_offset (3, 4, 5) (10, 20, 30)).1 10,
      subI32 (apply_offset (3, 4, 5) (10, 20, 30)).2.1 20,
      subI32 (apply_offset (3, 4, 5) (10, 20, 30)).2.2 30) = ((3 : Int), (4 : Int), (5 : Int)) :=
  ⟨by constructor <;> decide,
    (c8_offset_roundtrip (3, 4, 5) (10, 20, 30)
      (by constructor <;> decide) (by constructor <;> decide)
      (by constructor <;> decide) (by constructor <;> decide)
      (by constructor <;> decide) (by constructor <;> decide)).2.2⟩

/-- C7: a `Remove` action is interchangeable with a `Place` of the canonical
empty identifier `air`: the two produce identical results — the same single
`setblock` command at the translated position and the `Neutral` outcome —
and the command renders as the exact `setblock x y z air` text. -/
theorem c7_remove_is_place_air (bot : Backend) (ats : List Nat) (value_idx : Nat)
    (pos offset : Pos3) :
    executeAction bot ⟨ats, .remove pos⟩ value_idx offset =
      executeAction bot ⟨ats, .place pos "air"⟩ value_idx offset ∧
    executeAction bot ⟨ats, .remove pos⟩ value_idx offset =
      (.neutral, [.setblock (apply_offset pos offset) "air"]) ∧
    renderCmd (.setblock (apply_offset pos offset) "air") =
      "setblock " ++ posStr (apply_offset pos offset) ++ " air" := by
  refine ⟨rfl, rfl, ?_⟩
  show (("setblock " ++ posStr (apply_offset pos offset)) ++ " ") ++ "air" = _
  rw [String.append_assoc]
  congr 1

/-- The normalization the claim attributes to both identifiers: strip the
namespace, case-fold, strip separator characters (from the claim text, for
comparison with the code). -/
def claimNormalize (s : String) : String :=
  stripUnders (lowerS (trimStartMatchesS "minecraft:" s))

/-- The comparison rule the claim states: each normalized identifier
contained in the other (from the claim text, for comparison with the code). -/
def claimBidirCheck (expected actual : String) : Bool :=
  containsSub (claimNormalize actual) (claimNormalize expected) &&
    containsSub (claimNormalize expected) (claimNormalize actual)

/-- The comparison the code actually performs, stated as amended: the
expected identifier is normalized (namespace stripped, case-folded,
underscores removed); the actual identifier is only case-folded; the check
succeeds exactly when the normalized expected text occurs as a substring of
the case-folded actual text, or of the case-folded actual text with its
underscores removed. -/
def amendedCheck (expected : String) (actual_block : Option String) : Bool :=
  match actual_block with
  | none => false
  | some actual =>
    let e := stripUnders (lowerS (trimStartMatchesS "minecraft:" expected))
    containsSub (lowerS actual) e || containsSub (stripUnders (lowerS actual)) e

/-- The code comparison coincides with the amended description. -/
lemma assertCheckSuccess_eq_amendedCheck (e : String) (a : Option String) :
    assertCheckSuccess e a = amendedCheck e a := by
  cases a <;> rfl

/-- An `Assert` entry passes exactly when every one of its checks succeeds. -/
lemma assertLoop_eq_passed_iff (bot : Backend) (offset : Pos3) (checks : List BlockCheck) :
    assertLoop bot offset checks = .passed ↔
      checks.all
        (fun c => assertCheckSuccess c.is (bot.get_block (apply_offset c.pos offset))) = true := by
  induction checks with
  | nil => simp [assertLoop]
  | cons c rest ih =>
    simp only [assertLoop, List.all_cons, Bool.and_eq_true]
    by_cases h : assertCheckSuccess c.is (bot.get_block (apply_offset c.pos offset)) = true
    · simp [h, ih]
    · simp [h]

/-- C2, counterexample: with expected identifier `stone` and queried actual
identifier `redstone`, the code accepts the check (the normalized expected
text occurs inside the actual text) while the claimed bidirectional rule
rejects it (`redstone` is not contained in `stone`), so the claimed
equivalence fails at this input. -/
theorem c2_counterexample :
    (executeAction ⟨fun _ => some "redstone"⟩
        ⟨[0], .assert [⟨(0, 0, 0), "stone"⟩]⟩ 0 (0, 0, 0)).1 = .passed ∧
    claimBidirCheck "stone" "redstone" = false := by
  constructor
  · decide
  · decide

/-- C2, amended: an `Assert` entry passes exactly when every check `(pos,
expected)` satisfies the one-directional rule: the normalized expected
identifier (namespace stripped, case-folded, underscores removed) occurs as
a substring of the case-folded actual identifier, or of the case-folded
actual identifier with underscores removed; a `None` actual never passes. -/
theorem c2_assert_comparison (bot : Backend) (ats : List Nat) (value_idx : Nat)
    (offset : Pos3) (checks : List BlockCheck) :
    (executeAction bot ⟨ats, .assert checks⟩ value_idx offset).1 = .passed ↔
      checks.all
        (fun c => amendedCheck c.is (bot.get_block (apply_offset c.pos offset))) = true := by
  show assertLoop bot offset checks = .passed ↔ _
  rw [assertLoop_eq_passed_iff]
  constructor
  · intro h
    rw [List.all_eq_true] at h ⊢
    intro c hc
    rw [← assertCheckSuccess_eq_amendedCheck]
    exact h c hc
  · intro h
    rw [List.all_eq_true] at h ⊢
    intro c hc
    rw [assertCheckSuccess_eq_amendedCheck]
    exact h c hc

/-- C9: running the scheduler on an empty test list still performs the full
lifecycle: the global maximum tick is 0, the loop visits exactly tick 0, the
trace is exactly one `tick freeze` followed by one `tick unfreeze` (so no
step and no fill command is ever sent), and the result list is empty. -/
theorem c9_empty_test_list (bot : Backend) :
    runTestsParallel bot [] = some ([Cmd.tickFreeze, Cmd.tickUnfreeze], []) ∧
    maxGlobalTick [] = 0 ∧
    List.range (maxGlobalTick [] + 1) = [0] ∧
    List.count (Cmd.tickStep 1) [Cmd.tickFreeze, Cmd.tickUnfreeze] = 0 ∧
    List.count Cmd.tickFreeze [Cmd.tickFreeze, Cmd.tickUnfreeze] = 1 ∧
    List.count Cmd.tickUnfreeze [Cmd.tickFreeze, Cmd.tickUnfreeze] = 1 ∧
    (∀ a b blk, List.count (Cmd.fill a b blk) [Cmd.tickFreeze, Cmd.tickUnfreeze] = 0) := by
  refine ⟨rfl, rfl, rfl, by decide, by decide, by decide, ?_⟩
  intro a b blk
  rw [List.count_eq_zero]
  intro hmem
  simp at hmem

/-- Slice of the schedule contributed by entry `ei` of test `ti`: one
element per occurrence of its `at` list, in occurrence order. -/
def schedOfEntry (ti ei : Nat) (e : TimelineEntry) : List (Nat × Nat × Nat × Nat) :=
  e.atTicks.enum.map (fun v => (v.2, ti, ei, v.1))

/-- Slice of the schedule contributed by test `ti`: its entries in
declaration order. -/
def schedOfTest (ti : Nat) (tp : TestSpec × Pos3) : List (Nat × Nat × Nat × Nat) :=
  tp.1.timeline.enum.flatMap (fun e => schedOfEntry ti e.1 e.2)

/-- The flattened schedule is the concatenation of the per-test slices in
test-enumeration order. -/
lemma scheduleList_eq (tests : List (TestSpec × Pos3)) :
    scheduleList tests = tests.enum.flatMap (fun p => schedOfTest p.1 p.2) := rfl

/-- Every schedule element addresses a real test, a real entry of that
test, and a real occurrence of that entry: all three indices are in range. -/
lemma mem_scheduleList_spec {tests : List (TestSpec × Pos3)} {q : Nat × Nat × Nat × Nat}
    (hq : q ∈ scheduleList tests) :
    q.2.1 < tests.length ∧
    q.2.2.1 < (tests.getD q.2.1 (dfltSpec, (0, 0, 0))).1.timeline.length ∧
    q.2.2.2 <
      ((tests.getD q.2.1 (dfltSpec, (0, 0, 0))).1.timeline.getD q.2.2.1 dfltEntry).atTicks.length := by
  rw [scheduleList_eq, List.mem_flatMap] at hq
  obtain ⟨⟨ti, tp⟩, hp, hq⟩ := hq
  rw [List.enum_eq_enumFrom] at hp
  obtain ⟨-, hti, htp⟩ := List.mem_enumFrom hp
  rw [schedOfTest, List.mem_flatMap] at hq
  obtain ⟨⟨ei, e⟩, he, hq⟩ := hq
  rw [List.enum_eq_enumFrom] at he
  obtain ⟨-, hei, hee⟩ := List.mem_enumFrom he
  rw [schedOfEntry, List.mem_map] at hq
  obtain ⟨⟨vi, tk⟩, hv, hqe⟩ := hq
  rw [List.enum_eq_enumFrom] at hv
  obtain ⟨-, hvi, hvv⟩ := List.mem_enumFrom hv
  subst hqe
  simp only [Nat.sub_zero] at htp hee hvv
  simp only [Nat.add_comm 0] at hti hei hvi
  have h1 : ti < tests.length := by omega
  have h2 : tests.getD ti (dfltSpec, (0, 0, 0)) = tp := by
    rw [getD_eq_getElem _ _ h1, ← htp]
  have h3 : ei < tp.1.timeline.length := by omega
  have h4 : tp.1.timeline.getD ei dfltEntry = e := by
    rw [getD_eq_getElem _ _ h3, ← hee]
  refine ⟨h1, ?_, ?_⟩
  · show ei < _
    rw [h2]
    exact h3
  · show vi < _
    rw [h2, h4]
    omega

/-- Bucket membership comes from schedule membership at the right tick. -/
lemma mem_bucketAt {tests : List (TestSpec × Pos3)} {t : Nat} {q' : Nat × Nat × Nat}
    (h : q' ∈ bucketAt tests t) :
    ∃ q ∈ scheduleList tests, q.2 = q' ∧ q.1 = t := by
  rw [bucketAt, List.mem_map] at h
  obtain ⟨q, hq, hq'⟩ := h
  rw [List.mem_filter] at hq
  exact ⟨q, hq.1, hq', by simpa using hq.2⟩

/-- Lexicographic order of schedule identities: earlier test, then earlier
entry within a test, then earlier occurrence within an entry. -/
def entryLt (a b : Nat × Nat × Nat) : Prop :=
  a.1 < b.1 ∨ (a.1 = b.1 ∧ (a.2.1 < b.2.1 ∨ (a.2.1 = b.2.1 ∧ a.2.2 < b.2.2)))

/-- The same order on full schedule elements, comparing their identities. -/
def schedLt (a b : Nat × Nat × Nat × Nat) : Prop := entryLt a.2 b.2

/-- First components of an enumeration are strictly increasing. -/
lemma pairwise_fst_lt_enumFrom {α : Type} :
    ∀ (l : List α) (n : Nat),
      List.Pairwise (fun a b : Nat × α => a.1 < b.1) (l.enumFrom n)
  | [], _ => by simp
  | x :: xs, n => by
    rw [List.enumFrom_cons]
    refine List.Pairwise.cons ?_ (pairwise_fst_lt_enumFrom xs (n + 1))
    rintro ⟨i, y⟩ hb
    have h := (List.mem_enumFrom hb).1
    show n < i
    omega

/-- Generic ordering lemma for a flatMap over an enumeration: when each
block is internally ordered and any element of an earlier block is below
any element of a later block, the whole flattening is ordered. -/
lemma pairwise_flatMap_enumFrom {α β : Type} (f : Nat → α → List β) (P : β → β → Prop)
    (hin : ∀ i a, List.Pairwise P (f i a))
    (hcross : ∀ i a j c b b', i < j → b ∈ f i a → b' ∈ f j c → P b b') :
    ∀ (l : List α) (n : Nat),
      List.Pairwise P ((l.enumFrom n).flatMap (fun p => f p.1 p.2))
  | [], _ => by simp
  | x :: xs, n => by
    rw [List.enumFrom_cons, List.flatMap_cons, List.pairwise_append]
    refine ⟨hin n x, pairwise_flatMap_enumFrom f P hin hcross xs (n + 1), ?_⟩
    intro b hb b' hb'
    rw [List.mem_flatMap] at hb'
    obtain ⟨⟨j, c⟩, hp, hbp⟩ := hb'
    have hj := (List.mem_enumFrom hp).1
    exact hcross n x j c b b' (by omega) hb hbp

/-- Elements of an entry slice carry the test and entry indices of that entry. -/
lemma mem_schedOfEntry_ids {ti ei : Nat} {e : TimelineEntry} {q : Nat × Nat × Nat × Nat}
    (h : q ∈ schedOfEntry ti ei e) : q.2.1 = ti ∧ q.2.2.1 = ei := by
  rw [schedOfEntry, List.mem_map] at h
  obtain ⟨v, -, hq⟩ := h
  subst hq
  exact ⟨rfl, rfl⟩

/-- Elements of a test slice carry the index of that test. -/
lemma mem_schedOfTest_ids {ti : Nat} {tp : TestSpec × Pos3} {q : Nat × Nat × Nat × Nat}
    (h : q ∈ schedOfTest ti tp) : q.2.1 = ti := by
  rw [schedOfTest, List.mem_flatMap] at h
  obtain ⟨e, -, hq⟩ := h
  exact (mem_schedOfEntry_ids hq).1

/-- An entry slice is ordered by occurrence index. -/
lemma pairwise_schedOfEntry (ti ei : Nat) (e : TimelineEntry) :
    List.Pairwise schedLt (schedOfEntry ti ei e) := by
  rw [schedOfEntry, List.pairwise_map]
  have h := pairwise_fst_lt_enumFrom e.atTicks 0
  rw [← List.enum_eq_enumFrom] at h
  refine h.imp ?_
  intro a b hab
  exact Or.inr ⟨rfl, Or.inr ⟨rfl, hab⟩⟩

/-- A test slice is ordered by entry index, then occurrence index. -/
lemma pairwise_schedOfTest (ti : Nat) (tp : TestSpec × Pos3) :
    List.Pairwise schedLt (schedOfTest ti tp) := by
  rw [schedOfTest, List.enum_eq_enumFrom]
  refine pairwise_flatMap_enumFrom _ _ (fun i a => pairwise_schedOfEntry ti i a) ?_ _ 0
  intro i a j c b b' hij hb hb'
  obtain ⟨hb1, hb2⟩ := mem_schedOfEntry_ids hb
  obtain ⟨hb'1, hb'2⟩ := mem_schedOfEntry_ids hb'
  exact Or.inr ⟨by rw [hb1, hb'1], Or.inl (by rw [hb2, hb'2]; exact hij)⟩

/-- The whole flattened schedule is ordered by test index, then entry
index, then occurrence index. -/
lemma pairwise_scheduleList (tests : List (TestSpec × Pos3)) :
    List.Pairwise schedLt (scheduleList tests) := by
  rw [scheduleList_eq, List.enum_eq_enumFrom]
  refine pairwise_flatMap_enumFrom _ _ (fun i a => pairwise_schedOfTest i a) ?_ _ 0
  intro i a j c b b' hij hb hb'
  have h1 := mem_schedOfTest_ids hb
  have h2 := mem_schedOfTest_ids hb'
  exact Or.inl (by rw [h1, h2]; exact hij)

/-- C1: the per-tick bucket of the global timeline lists same-tick actions
strictly ordered by test-enumeration order, then entry-declaration order,
then occurrence order; the bucket is exactly the tick-`t` restriction of
the canonical nested enumeration the tick loop consumes in order; and
building the timeline twice from identical input yields identical per-tick
buckets. -/
theorem c1_bucket_ordering (tests : List (TestSpec × Pos3)) (t : Nat) :
    List.Pairwise entryLt (bucketAt tests t) ∧
    bucketAt tests t =
      ((scheduleList tests).filter (fun q => q.1 == t)).map (fun q => q.2) ∧
    (∀ tests' : List (TestSpec × Pos3), tests' = tests →
      bucketAt tests' t = bucketAt tests t) := by
  refine ⟨?_, rfl, ?_⟩
  · rw [bucketAt, List.pairwise_map]
    exact List.Pairwise.filter _ (pairwise_scheduleList tests)
  · intro tests' h
    rw [h]

/-- C6: an `AssertState` occurrence index at or past the end of the values
list makes `execute_action` fail fast — the index lookup panics instead of
defaulting or yielding a `Passed`/`Failed` outcome; and the builder only
ever produces occurrence indices below the length of the `at` list of the
entry, so an entry with `at = [0, 5, 10]` needs exactly one value per its
three occurrence indices 0, 1, 2, and index 3 is out of bounds. -/
theorem c6_assertState_oob_fails_fast :
    (∀ (bot : Backend) (ats : List Nat) (pos : Pos3) (state : String)
        (values : List String) (value_idx : Nat) (offset : Pos3),
        values.length ≤ value_idx →
        executeAction bot ⟨ats, .assertState pos state values⟩ value_idx offset =
          (.panicked, [])) ∧
    (∀ (tests : List (TestSpec × Pos3)) (q : Nat × Nat × Nat × Nat),
        q ∈ scheduleList tests →
        q.2.2.2 <
          ((tests.getD q.2.1 (dfltSpec, (0, 0, 0))).1.timeline.getD
            q.2.2.1 dfltEntry).atTicks.length) := by
  constructor
  · intro bot ats pos state values value_idx offset h
    simp [executeAction, List.getElem?_eq_none h]
  · intro tests q hq
    exact (mem_scheduleList_spec hq).2.2

/-- Witness input for `c6_assertState_oob_fails_fast`. -/
def testsW6 : List (TestSpec × Pos3) :=
  [(⟨"w6", none, [⟨[0, 5, 10], .assertState (0, 0, 0) "lit" ["a", "b", "c"]⟩],
    ((0, 0, 0), (0, 0, 0))⟩, (0, 0, 0))]

/-- Witness for `c6_assertState_oob_fails_fast`: a three-value list indexed
at occurrence 3 panics, and occurrence index 1 of the only entry of
`testsW6` is below its `at`-list length 3. -/
theorem c6_assertState_oob_fails_fast_witness :
    executeAction ⟨fun _ => none⟩
      ⟨[0, 5, 10], .assertState (0, 0, 0) "lit" ["a", "b", "c"]⟩ 3 (0, 0, 0) =
      (.panicked, []) ∧
    (1 : Nat) < 3 :=
  ⟨c6_assertState_oob_fails_fast.1 ⟨fun _ => none⟩ [0, 5, 10] (0, 0, 0) "lit"
      ["a", "b", "c"] 3 (0, 0, 0) (by decide),
    c6_assertState_oob_fails_fast.2 testsW6 (5, 0, 0, 1) (by decide)⟩

/-- Classification of clock-control commands. -/
def isTickCmd : Cmd → Bool
  | .fill _ _ _ => false
  | .setblock _ _ => false
  | .tickFreeze => true
  | .tickUnfreeze => true
  | .tickStep _ => true

/-- Actions only ever send `setblock` and `fill` commands, never a
clock-control command. -/
lemma executeAction_cmds_not_tick (bot : Backend) (entry : TimelineEntry)
    (value_idx : Nat) (offset : Pos3) :
    ∀ c ∈ (executeAction bot entry value_idx offset).2, isTickCmd c = false := by
  intro c hc
  rcases entry with ⟨ats, act⟩
  cases act with
  | place pos block =>
    simp [executeAction] at hc
    subst hc
    rfl
  | placeEach blocks =>
    simp [executeAction] at hc
    obtain ⟨pl, -, hc⟩ := hc
    subst hc
    rfl
  | fill region withBlock =>
    simp [executeAction] at hc
    subst hc
    rfl
  | remove pos =>
    simp [executeAction] at hc
    subst hc
    rfl
  | assert checks =>
    simp [executeAction] at hc
  | assertState pos state values =>
    simp only [executeAction] at hc
    split at hc
    · simp at hc
    · split at hc
      · simp at hc
      · simp at hc

/-- A list of non-clock commands contains no step, freeze or unfreeze. -/
lemma count_tick_zero {l : List Cmd} (h : ∀ c ∈ l, isTickCmd c = false) :
    l.count (Cmd.tickStep 1) = 0 ∧ l.count Cmd.tickFreeze = 0 ∧
      l.count Cmd.tickUnfreeze = 0 := by
  refine ⟨?_, ?_, ?_⟩ <;>
    (rw [List.count_eq_zero]; intro hm; have hx := h _ hm; simp [isTickCmd] at hx)

/-- The commands of one processed entry are the commands of its action. -/
lemma stepEntry_some_spec {bot : Backend} {tests : List (TestSpec × Pos3)}
    {q : Nat × Nat × Nat} {st st' : List (Nat × Nat)} {cmds : List Cmd}
    (h : stepEntry bot tests q st = some (st', cmds)) :
    cmds = (executeAction bot
      ((tests.getD q.1 (dfltSpec, (0, 0, 0))).1.timeline.getD q.2.1 dfltEntry)
      q.2.2 (tests.getD q.1 (dfltSpec, (0, 0, 0))).2).2 ∧
    ∀ c ∈ cmds, isTickCmd c = false := by
  rw [stepEntry] at h
  split at h
  case _ heq =>
    rw [Option.some_inj] at h
    have h2 : cmds = (executeAction bot
        ((tests.getD q.1 (dfltSpec, (0, 0, 0))).1.timeline.getD q.2.1 dfltEntry)
        q.2.2 (tests.getD q.1 (dfltSpec, (0, 0, 0))).2).2 := by
      rw [heq]
      exact (congrArg Prod.snd h).symm
    refine ⟨h2, ?_⟩
    intro c hc
    rw [h2] at hc
    exact executeAction_cmds_not_tick bot _ q.2.2 _ c hc
  case _ heq =>
    rw [Option.some_inj] at h
    have h2 : cmds = (executeAction bot
        ((tests.getD q.1 (dfltSpec, (0, 0, 0))).1.timeline.getD q.2.1 dfltEntry)
        q.2.2 (tests.getD q.1 (dfltSpec, (0, 0, 0))).2).2 := by
      rw [heq]
      exact (congrArg Prod.snd h).symm
    refine ⟨h2, ?_⟩
    intro c hc
    rw [h2] at hc
    exact executeAction_cmds_not_tick bot _ q.2.2 _ c hc
  case _ heq =>
    rw [Option.some_inj] at h
    have h2 : cmds = (executeAction bot
        ((tests.getD q.1 (dfltSpec, (0, 0, 0))).1.timeline.getD q.2.1 dfltEntry)
        q.2.2 (tests.getD q.1 (dfltSpec, (0, 0, 0))).2).2 := by
      rw [heq]
      exact (congrArg Prod.snd h).symm
    refine ⟨h2, ?_⟩
    intro c hc
    rw [h2] at hc
    exact executeAction_cmds_not_tick bot _ q.2.2 _ c hc
  case _ => exact absurd h (by simp)

/-- Bucket execution sends no clock-control command. -/
lemma runBucket_cmds_not_tick {bot : Backend} {tests : List (TestSpec × Pos3)} :
    ∀ {qs : List (Nat × Nat × Nat)} {st st' : List (Nat × Nat)} {cmds : List Cmd},
      runBucket bot tests qs st = some (st', cmds) →
      ∀ c ∈ cmds, isTickCmd c = false := by
  intro qs
  induction qs with
  | nil =>
    intro st st' cmds h c hc
    rw [runBucket, Option.some_inj] at h
    have h2 : ([] : List Cmd) = cmds := by simpa using congrArg Prod.snd h
    rw [← h2] at hc
    simp at hc
  | cons q qs ih =>
    intro st st' cmds h c hc
    rw [runBucket] at h
    split at h
    · exact absurd h (by simp)
    case _ st1 c1 h1 =>
      split at h
      · exact absurd h (by simp)
      case _ st2 c2 h2 =>
        rw [Option.some_inj] at h
        have h3 : c1 ++ c2 = cmds := by simpa using congrArg Prod.snd h
        rw [← h3] at hc
        rcases List.mem_append.mp hc with hc1 | hc2
        · exact (stepEntry_some_spec h1).2 c hc1
        · exact ih h2 c hc2

/-- One tick sends its bucket commands and then exactly one step command
when more ticks remain, none otherwise. -/
lemma runTick_count {bot : Backend} {tests : List (TestSpec × Pos3)} {maxT : Nat}
    {st : List (Nat × Nat)} {t : Nat} {st' : List (Nat × Nat)} {cmds : List Cmd}
    (h : runTick bot tests maxT st t = some (st', cmds)) :
    cmds.count (Cmd.tickStep 1) = (if t < maxT then 1 else 0) ∧
    cmds.count Cmd.tickFreeze = 0 ∧ cmds.count Cmd.tickUnfreeze = 0 := by
  rw [runTick] at h
  split at h
  · exact absurd h (by simp)
  case _ st1 c1 h1 =>
  rw [Option.some_inj] at h
  have hcmds : cmds = c1 ++ (if t < maxT then [Cmd.tickStep 1] else []) := by
    simpa using (congrArg Prod.snd h).symm
  have hz := count_tick_zero (runBucket_cmds_not_tick h1)
  subst hcmds
  refine ⟨?_, ?_, ?_⟩ <;> rw [List.count_append]
  · rw [hz.1]
    split <;> simp
  · rw [hz.2.1]
    split <;> simp
  · rw [hz.2.2]
    split <;> simp

/-- Shape of a completed tick loop: one command segment per visited tick,
each holding exactly one step command for a non-final tick and none for the
final one, and no freeze or unfreeze anywhere in the loop. -/
lemma tickLoop_spec {bot : Backend} {tests : List (TestSpec × Pos3)} {maxT : Nat} :
    ∀ (ts : List Nat) (st st' : List (Nat × Nat)) (segs : List (List Cmd)),
      tickLoop bot tests maxT ts st = some (st', segs) →
      segs.length = ts.length ∧
      (∀ k, k < ts.length →
        (segs.getD k []).count (Cmd.tickStep 1) =
          if ts.getD k 0 < maxT then 1 else 0) ∧
      segs.flatten.count (Cmd.tickStep 1) =
        (ts.map (fun t => if t < maxT then 1 else 0)).sum ∧
      segs.flatten.count Cmd.tickFreeze = 0 ∧
      segs.flatten.count Cmd.tickUnfreeze = 0 := by
  intro ts
  induction ts with
  | nil =>
    intro st st' segs h
    rw [tickLoop, Option.some_inj] at h
    have h2 : ([] : List (List Cmd)) = segs := by simpa using congrArg Prod.snd h
    rw [← h2]
    simp
  | cons t ts ih =>
    intro st st' segs h
    rw [tickLoop] at h
    split at h
    · exact absurd h (by simp)
    case _ st1 c1 h1 =>
    split at h
    · exact absurd h (by simp)
    case _ st2 segs2 h2 =>
    rw [Option.some_inj] at h
    have hsegs : segs = c1 :: segs2 := by simpa using (congrArg Prod.snd h).symm
    subst hsegs
    obtain ⟨hl, hk, hf, hfr, hun⟩ := ih st1 st2 segs2 h2
    have hc1 := runTick_count h1
    refine ⟨by simpa using hl, ?_, ?_, ?_, ?_⟩
    · intro k hklt
      match k with
      | 0 => simpa using hc1.1
      | Nat.succ m =>
        have : m < ts.length := by simpa using hklt
        simpa using hk m this
    · rw [List.flatten_cons, List.count_append, List.map_cons, List.sum_cons,
        hc1.1, hf]
    · rw [List.flatten_cons, List.count_append, hc1.2.1, hfr]
    · rw [List.flatten_cons, List.count_append, hc1.2.2, hun]

/-- Sum of the per-tick step counts over the inclusive range. -/
lemma sum_range_step (n : Nat) :
    ((List.range (n + 1)).map (fun t => if t < n then 1 else 0)).sum = n := by
  rw [List.range_succ]
  simp only [List.map_append, List.sum_append, List.map_cons, List.map_nil]
  have h : ∀ t ∈ List.range n,
      (fun t => if t < n then 1 else 0) t = (fun _ => 1) t := by
    intro t ht
    simp [List.mem_range.mp ht]
  rw [List.map_congr_left h]
  simp

/-- Cleanup fills are never clock-control commands. -/
lemma cleanCmds_tick_count (tests : List (TestSpec × Pos3)) :
    (tests.map cleanCmd).count (Cmd.tickStep 1) = 0 ∧
    (tests.map cleanCmd).count Cmd.tickFreeze = 0 ∧
    (tests.map cleanCmd).count Cmd.tickUnfreeze = 0 := by
  refine count_tick_zero ?_
  intro c hc
  rw [List.mem_map] at hc
  obtain ⟨p, -, hp⟩ := hc
  rw [← hp]
  rfl

/-- C3: over one completed invocation, the loop visits every tick of
`[0, max_global_tick]` inclusive (one command segment per tick, even for
ticks with no due actions); the segment of every tick `t < max_global_tick`
holds exactly one `tick step 1` command, the final segment holds none, and
the whole trace carries exactly `max_global_tick` step commands — none
before the freeze or after the unfreeze. -/
theorem c3_tick_stepping (bot : Backend) (tests : List (TestSpec × Pos3))
    (st : List (Nat × Nat)) (segs : List (List Cmd))
    (h : tickSegs bot tests = some (st, segs)) :
    runTestsParallel bot tests =
      some (tests.map cleanCmd ++ [Cmd.tickFreeze] ++ segs.flatten ++
        [Cmd.tickUnfreeze] ++ tests.map cleanCmd, buildResults tests st) ∧
    segs.length = maxGlobalTick tests + 1 ∧
    (∀ t, t ≤ maxGlobalTick tests →
      (segs.getD t []).count (Cmd.tickStep 1) =
        if t < maxGlobalTick tests then 1 else 0) ∧
    (tests.map cleanCmd ++ [Cmd.tickFreeze] ++ segs.flatten ++
      [Cmd.tickUnfreeze] ++ tests.map cleanCmd).count (Cmd.tickStep 1) =
      maxGlobalTick tests := by
  rw [tickSegs] at h
  obtain ⟨hlen, hk, hflat, -, -⟩ :=
    tickLoop_spec (List.range (maxGlobalTick tests + 1))
      (List.replicate tests.length (0, 0)) st segs h
  rw [List.length_range] at hlen
  refine ⟨?_, hlen, ?_, ?_⟩
  · rw [runTestsParallel, tickSegs, h]
  · intro t ht
    have := hk t (by rw [List.length_range]; omega)
    rw [getD_eq_getElem (List.range (maxGlobalTick tests + 1)) 0
        (by rw [List.length_range]; omega), List.getElem_range] at this
    exact this
  · have hclean := cleanCmds_tick_count tests
    have h1 : List.count (Cmd.tickStep 1) [Cmd.tickFreeze] = 0 := by decide
    have h2 : List.count (Cmd.tickStep 1) [Cmd.tickUnfreeze] = 0 := by decide
    rw [List.count_append, List.count_append, List.count_append, List.count_append,
      hclean.1, h1, h2, hflat, sum_range_step]
    omega

/-- Witness backend for `c3_tick_stepping`. -/
def botW3 : Backend := ⟨fun _ => none⟩

/-- Witness tests for `c3_tick_stepping`: one test placing a block at ticks
0 and 1. -/
def testsW3 : List (TestSpec × Pos3) :=
  [(⟨"w3", none, [⟨[0, 1], .place (0, 0, 0) "stone"⟩], ((0, 0, 0), (1, 1, 1))⟩,
    (0, 0, 0))]

/-- The completed tick phase of the witness run. -/
def segsPairW3 : List (Nat × Nat) × List (List Cmd) :=
  (tickSegs botW3 testsW3).getD ([], [])

/-- Witness for `c3_tick_stepping`: the witness run completes and its trace
carries exactly `maxGlobalTick testsW3` step commands. -/
theorem c3_tick_stepping_witness :
    tickSegs botW3 testsW3 = some (segsPairW3.1, segsPairW3.2) ∧
    (testsW3.map cleanCmd ++ [Cmd.tickFreeze] ++ segsPairW3.2.flatten ++
      [Cmd.tickUnfreeze] ++ testsW3.map cleanCmd).count (Cmd.tickStep 1) =
      maxGlobalTick testsW3 := by
  have h : tickSegs botW3 testsW3 = some (segsPairW3.1, segsPairW3.2) := by rfl
  exact ⟨h, (c3_tick_stepping botW3 testsW3 segsPairW3.1 segsPairW3.2 h).2.2.2⟩

/-- Outcome of the action a schedule element addresses (the value the tick
loop matches on for that element). -/
def outcomeOf (bot : Backend) (tests : List (TestSpec × Pos3)) (q : Nat × Nat × Nat) :
    Outcome :=
  (executeAction bot
    ((tests.getD q.1 (dfltSpec, (0, 0, 0))).1.timeline.getD q.2.1 dfltEntry)
    q.2.2 (tests.getD q.1 (dfltSpec, (0, 0, 0))).2).1

/-- Is this outcome a recorded assertion failure? -/
def isFailedO : Outcome → Bool
  | .failed _ => true
  | _ => false

/-- Is this outcome a recorded assertion pass? -/
def isPassedO : Outcome → Bool
  | .passed => true
  | _ => false

/-- The flattened execution order of one run: tick 0 bucket, tick 1 bucket,
and so on through the final tick. -/
def execList (tests : List (TestSpec × Pos3)) : List (Nat × Nat × Nat) :=
  (List.range (maxGlobalTick tests + 1)).flatMap (bucketAt tests)

/-- Number of passed outcomes owned by test `i` in a list of elements. -/
def cntP (bot : Backend) (tests : List (TestSpec × Pos3)) (i : Nat)
    (l : List (Nat × Nat × Nat)) : Nat :=
  l.countP (fun q => q.1 == i && isPassedO (outcomeOf bot tests q))

/-- Number of failed outcomes owned by test `i` in a list of elements. -/
def cntF (bot : Backend) (tests : List (TestSpec × Pos3)) (i : Nat)
    (l : List (Nat × Nat × Nat)) : Nat :=
  l.countP (fun q => q.1 == i && isFailedO (outcomeOf bot tests q))

/-- Reading back the set position. -/
lemma getD_set_self {st : List (Nat × Nat)} {i : Nat} (h : i < st.length)
    (v : Nat × Nat) : (st.set i v).getD i (0, 0) = v := by
  simp [List.getD_eq_getElem?_getD, List.getElem?_set_self, h]

/-- Setting one position leaves every other position unchanged. -/
lemma getD_set_ne {st : List (Nat × Nat)} {i j : Nat} (h : i ≠ j) (v : Nat × Nat) :
    (st.set i v).getD j (0, 0) = st.getD j (0, 0) := by
  simp [List.getD_eq_getElem?_getD, List.getElem?_set_ne h]

/-- State effect of one processed entry: the new counters are the old ones
with only the pair of the owner bumped according to the outcome. -/
lemma stepEntry_state_spec {bot : Backend} {tests : List (TestSpec × Pos3)}
    {q : Nat × Nat × Nat} {st st' : List (Nat × Nat)} {cmds : List Cmd}
    (h : stepEntry bot tests q st = some (st', cmds)) :
    st' = (if isPassedO (outcomeOf bot tests q) then bumpPassed st q.1
      else if isFailedO (outcomeOf bot tests q) then bumpFailed st q.1 else st) := by
  rw [stepEntry] at h
  split at h
  case _ heq =>
    rw [Option.some_inj] at h
    have h1 : st' = bumpPassed st q.1 := by simpa using (congrArg Prod.fst h).symm
    rw [h1, outcomeOf, heq]
    rfl
  case _ heq =>
    rw [Option.some_inj] at h
    have h1 : st' = st := by simpa using (congrArg Prod.fst h).symm
    rw [h1, outcomeOf, heq]
    rfl
  case _ heq =>
    rw [Option.some_inj] at h
    have h1 : st' = bumpFailed st q.1 := by simpa using (congrArg Prod.fst h).symm
    rw [h1, outcomeOf, heq]
    rfl
  case _ => exact absurd h (by simp)

/-- A processed entry never aborts unless its action panicked. -/
lemma stepEntry_none_iff {bot : Backend} {tests : List (TestSpec × Pos3)}
    {q : Nat × Nat × Nat} {st : List (Nat × Nat)} :
    stepEntry bot tests q st = none ↔ outcomeOf bot tests q = .panicked := by
  rw [stepEntry, outcomeOf]
  split
  case _ heq => rw [heq]; simp
  case _ heq => rw [heq]; simp
  case _ heq => rw [heq]; simp
  case _ heq => rw [heq]; simp

/-- Frame property of one processed entry: counters of every other test are
untouched, and the counter list keeps its length. -/
lemma stepEntry_frame {bot : Backend} {tests : List (TestSpec × Pos3)}
    {q : Nat × Nat × Nat} {st st' : List (Nat × Nat)} {cmds : List Cmd}
    (h : stepEntry bot tests q st = some (st', cmds)) :
    st'.length = st.length ∧
    ∀ j, j ≠ q.1 → st'.getD j (0, 0) = st.getD j (0, 0) := by
  rw [stepEntry_state_spec h]
  split
  · exact ⟨List.length_set .., fun j hj => getD_set_ne (fun he => hj he.symm) _⟩
  · split
    · exact ⟨List.length_set .., fun j hj => getD_set_ne (fun he => hj he.symm) _⟩
    · exact ⟨rfl, fun _ _ => rfl⟩

/-- Counter effect of one processed entry on each test index: the owner
gains one passed or one failed according to the outcome, everyone else is
untouched. -/
lemma stepEntry_counters {bot : Backend} {tests : List (TestSpec × Pos3)}
    {q : Nat × Nat × Nat} {st st' : List (Nat × Nat)} {cmds : List Cmd}
    (h : stepEntry bot tests q st = some (st', cmds)) (hq1 : q.1 < st.length) :
    ∀ i, st'.getD i (0, 0) =
      ((st.getD i (0, 0)).1 +
        (if (q.1 == i && isPassedO (outcomeOf bot tests q)) = true then 1 else 0),
       (st.getD i (0, 0)).2 +
        (if (q.1 == i && isFailedO (outcomeOf bot tests q)) = true then 1 else 0)) := by
  intro i
  rw [stepEntry_state_spec h]
  rcases hout : outcomeOf bot tests q with _ | _ | msg | _
  · show (bumpPassed st q.1).getD i (0, 0) = _
    by_cases hqi : q.1 = i
    · subst hqi
      rw [bumpPassed, getD_set_self hq1]
      simp [isPassedO, isFailedO]
    · rw [bumpPassed, getD_set_ne hqi]
      simp [isPassedO, isFailedO, hqi]
  · show st.getD i (0, 0) = _
    simp [isPassedO, isFailedO]
  · show (bumpFailed st q.1).getD i (0, 0) = _
    by_cases hqi : q.1 = i
    · subst hqi
      rw [bumpFailed, getD_set_self hq1]
      simp [isPassedO, isFailedO]
    · rw [bumpFailed, getD_set_ne hqi]
      simp [isPassedO, isFailedO, hqi]
  · show st.getD i (0, 0) = _
    simp [isPassedO, isFailedO]

/-- Counter accounting of one bucket: the pair of each test gains exactly its
number of passed and failed outcomes among the elements of the bucket. -/
lemma runBucket_counters {bot : Backend} {tests : List (TestSpec × Pos3)} :
    ∀ {qs : List (Nat × Nat × Nat)} {st st' : List (Nat × Nat)} {cmds : List Cmd},
      runBucket bot tests qs st = some (st', cmds) →
      (∀ q ∈ qs, q.1 < st.length) →
      st'.length = st.length ∧
      ∀ i, st'.getD i (0, 0) =
        ((st.getD i (0, 0)).1 + cntP bot tests i qs,
          (st.getD i (0, 0)).2 + cntF bot tests i qs) := by
  intro qs
  induction qs with
  | nil =>
    intro st st' cmds h hb
    rw [runBucket, Option.some_inj] at h
    have h1 : st = st' := by simpa using congrArg Prod.fst h
    subst h1
    exact ⟨rfl, fun i => by simp [cntP, cntF]⟩
  | cons q qs ih =>
    intro st st' cmds h hb
    rw [runBucket] at h
    split at h
    · exact absurd h (by simp)
    case _ st1 c1 h1 =>
      split at h
      · exact absurd h (by simp)
      case _ st2 c2 h2 =>
        rw [Option.some_inj] at h
        have hst2 : st2 = st' := by simpa using congrArg Prod.fst h
        subst hst2
        have hq1 : q.1 < st.length := hb q (List.mem_cons_self q qs)
        have hlen1 : st1.length = st.length := (stepEntry_frame h1).1
        obtain ⟨hlen2, hcnt⟩ := ih h2 (fun q' hq' => by
          rw [hlen1]
          exact hb q' (List.mem_cons_of_mem q hq'))
        refine ⟨by rw [hlen2, hlen1], ?_⟩
        intro i
        rw [hcnt i, stepEntry_counters h1 hq1 i]
        simp only [cntP, cntF, List.countP_cons]
        cases hb1 : (q.1 == i && isPassedO (outcomeOf bot tests q)) <;>
          cases hb2 : (q.1 == i && isFailedO (outcomeOf bot tests q)) <;>
            (simp [hb1, hb2, Prod.ext_iff]; try omega)

/-- The step command appended after a tick does not change the counters:
the state transition of one tick is that of its bucket. -/
lemma runTick_state {bot : Backend} {tests : List (TestSpec × Pos3)} {maxT : Nat}
    {st : List (Nat × Nat)} {t : Nat} {st' : List (Nat × Nat)} {cmds : List Cmd}
    (h : runTick bot tests maxT st t = some (st', cmds)) :
    ∃ bc, runBucket bot tests (bucketAt tests t) st = some (st', bc) := by
  rw [runTick] at h
  split at h
  · exact absurd h (by simp)
  case _ st1 c1 h1 =>
    rw [Option.some_inj] at h
    have h2 : st1 = st' := by simpa using congrArg Prod.fst h
    exact ⟨c1, by rw [← h2]; exact h1⟩

/-- Counter accounting of the whole tick loop: the final pair of each test is
its number of passed and failed outcomes over the buckets of the visited
ticks, in order. -/
lemma tickLoop_counters {bot : Backend} {tests : List (TestSpec × Pos3)} {maxT : Nat} :
    ∀ (ts : List Nat) (st st' : List (Nat × Nat)) (segs : List (List Cmd)),
      tickLoop bot tests maxT ts st = some (st', segs) →
      (∀ q ∈ ts.flatMap (bucketAt tests), q.1 < st.length) →
      st'.length = st.length ∧
      ∀ i, st'.getD i (0, 0) =
        ((st.getD i (0, 0)).1 + cntP bot tests i (ts.flatMap (bucketAt tests)),
          (st.getD i (0, 0)).2 + cntF bot tests i (ts.flatMap (bucketAt tests))) := by
  intro ts
  induction ts with
  | nil =>
    intro st st' segs h hb
    rw [tickLoop, Option.some_inj] at h
    have h1 : st = st' := by simpa using congrArg Prod.fst h
    subst h1
    exact ⟨rfl, fun i => by simp [cntP, cntF]⟩
  | cons t ts ih =>
    intro st st' segs h hb
    rw [tickLoop] at h
    split at h
    · exact absurd h (by simp)
    case _ st1 c1 h1 =>
      split at h
      · exact absurd h (by simp)
      case _ st2 segs2 h2 =>
        rw [Option.some_inj] at h
        have hst2 : st2 = st' := by simpa using congrArg Prod.fst h
        subst hst2
        obtain ⟨bc, hbk⟩ := runTick_state h1
        have hbbound : ∀ q ∈ bucketAt tests t, q.1 < st.length := by
          intro q hq
          refine hb q ?_
          rw [List.flatMap_cons, List.mem_append]
          exact Or.inl hq
        obtain ⟨hlen1, hcnt1⟩ := runBucket_counters hbk hbbound
        obtain ⟨hlen2, hcnt2⟩ := ih st1 st2 segs2 h2 (fun q hq => by
          rw [hlen1]
          refine hb q ?_
          rw [List.flatMap_cons, List.mem_append]
          exact Or.inr hq)
        refine ⟨by rw [hlen2, hlen1], ?_⟩
        intro i
        rw [hcnt2 i, hcnt1 i]
        simp only [cntP, cntF, List.flatMap_cons, List.countP_append, Prod.ext_iff]
        constructor <;> omega

/-- Every element executed by a run addresses a test index below the number
of tests. -/
lemma execList_ti_lt {tests : List (TestSpec × Pos3)} {q : Nat × Nat × Nat}
    (hq : q ∈ execList tests) : q.1 < tests.length := by
  rw [execList, List.mem_flatMap] at hq
  obtain ⟨t, -, hq⟩ := hq
  obtain ⟨q0, hq0, hq0eq, -⟩ := mem_bucketAt hq
  rw [← hq0eq]
  exact (mem_scheduleList_spec hq0).1

/-- Placeholder result for total list lookups over results. -/
def dfltResult : TestResult := ⟨"", 0, 0, true⟩

/-- Reading one entry of the built result list. -/
lemma buildResults_getD {tests : List (TestSpec × Pos3)} {st : List (Nat × Nat)}
    {i : Nat} (h : i < tests.length) :
    (buildResults tests st).getD i dfltResult =
      ⟨(tests[i]).1.name, (st.getD i (0, 0)).1, (st.getD i (0, 0)).2,
        (st.getD i (0, 0)).2 == 0⟩ := by
  have hlen : i < (buildResults tests st).length := by
    rw [buildResults, List.length_map, List.enum_length]
    exact h
  rw [getD_eq_getElem _ _ hlen]
  simp only [buildResults]
  simp [List.getElem_map, List.getElem_enum]

/-- Reading the all-zero initial counters. -/
lemma getD_replicate_zero (n i : Nat) :
    (List.replicate n ((0 : Nat), (0 : Nat))).getD i (0, 0) = (0, 0) := by
  simp [List.getD_eq_getElem?_getD, List.getElem?_replicate]
  split <;> rfl

/-- C4 (amended): executing an action of test `i` changes only the counters
of test `i` (frame property, first conjunct); consequently, in a completed
run in which test A has a failing outcome at some tick and no outcome of
test B anywhere in the run fails — in particular when the assertion of B at
a tick it shares with A passes and B has no other failure — the final results
report A with `failed ≥ 1` and `success = false` and B with `failed = 0`
and `success = true`. -/
theorem c4_per_test_isolation (bot : Backend) (tests : List (TestSpec × Pos3))
    (st : List (Nat × Nat)) (segs : List (List Cmd))
    (h : tickSegs bot tests = some (st, segs))
    (A B : Nat) (hA : A < tests.length) (hB : B < tests.length)
    (hBnofail : ∀ q ∈ execList tests, q.1 = B →
      isFailedO (outcomeOf bot tests q) = false)
    (hAfail : ∃ q ∈ execList tests, q.1 = A ∧
      isFailedO (outcomeOf bot tests q) = true) :
    (∀ (q : Nat × Nat × Nat) (st0 st1 : List (Nat × Nat)) (cmds : List Cmd) (j : Nat),
        stepEntry bot tests q st0 = some (st1, cmds) → j ≠ q.1 →
        st1.getD j (0, 0) = st0.getD j (0, 0)) ∧
    1 ≤ ((buildResults tests st).getD A dfltResult).failed ∧
    ((buildResults tests st).getD A dfltResult).success = false ∧
    ((buildResults tests st).getD B dfltResult).failed = 0 ∧
    ((buildResults tests st).getD B dfltResult).success = true := by
  have hframe : ∀ (q : Nat × Nat × Nat) (st0 st1 : List (Nat × Nat)) (cmds : List Cmd)
      (j : Nat), stepEntry bot tests q st0 = some (st1, cmds) → j ≠ q.1 →
      st1.getD j (0, 0) = st0.getD j (0, 0) :=
    fun q st0 st1 cmds j hst hj => (stepEntry_frame hst).2 j hj
  rw [tickSegs] at h
  have hbound : ∀ q ∈ (List.range (maxGlobalTick tests + 1)).flatMap (bucketAt tests),
      q.1 < (List.replicate tests.length ((0 : Nat), (0 : Nat))).length := by
    intro q hq
    rw [List.length_replicate]
    exact execList_ti_lt hq
  obtain ⟨-, hcnt⟩ := tickLoop_counters _ _ _ _ h hbound
  have hstA := hcnt A
  have hstB := hcnt B
  rw [getD_replicate_zero, ← execList] at hstA hstB
  simp only [Prod.fst, Prod.snd, Nat.zero_add] at hstA hstB
  have hFA : 1 ≤ cntF bot tests A (execList tests) := by
    obtain ⟨q, hq, hq1, hqf⟩ := hAfail
    have : 0 < cntF bot tests A (execList tests) := by
      rw [cntF]
      refine List.countP_pos_iff.mpr ⟨q, hq, ?_⟩
      simp [hq1, hqf]
    omega
  have hFB : cntF bot tests B (execList tests) = 0 := by
    rw [cntF]
    refine List.countP_eq_zero.mpr ?_
    intro q hq
    by_cases hq1 : q.1 = B
    · simp [hq1, hBnofail q hq hq1]
    · simp [hq1]
  rw [buildResults_getD hA, buildResults_getD hB]
  refine ⟨hframe, ?_, ?_, ?_, ?_⟩
  · show 1 ≤ (st.getD A (0, 0)).2
    rw [hstA]
    exact hFA
  · show ((st.getD A (0, 0)).2 == 0) = false
    rw [hstA]
    have : cntF bot tests A (execList tests) ≠ 0 := by omega
    simpa using this
  · show (st.getD B (0, 0)).2 = 0
    rw [hstB]
    exact hFB
  · show ((st.getD B (0, 0)).2 == 0) = true
    rw [hstB, hFB]
    rfl

/-- Backend for the C4 scenario: only world position `(10, 0, 0)` holds a
block. -/
def botX4 : Backend := ⟨fun p => if p = (10, 0, 0) then some "minecraft:stone" else none⟩

/-- C4 counterexample input: test A (index 0) has one failing assertion at
tick 0; test B (index 1) has a passing assertion at the shared tick 0 and a
failing assertion at tick 1. -/
def testsX4 : List (TestSpec × Pos3) :=
  [(⟨"A", none, [⟨[0], .assert [⟨(0, 0, 0), "stone"⟩]⟩], ((0, 0, 0), (1, 1, 1))⟩,
    (0, 0, 0)),
   (⟨"B", none, [⟨[0], .assert [⟨(0, 0, 0), "stone"⟩]⟩,
      ⟨[1], .assert [⟨(2, 0, 0), "stone"⟩]⟩], ((0, 0, 0), (1, 1, 1))⟩,
    (10, 0, 0))]

/-- C4, counterexample: at the shared tick 0, the assertion of test A fails
and that of test B passes, yet the completed run reports B with `failed = 1` and
`success = false` (B fails later, at tick 1), contradicting the claim that
the antecedent alone forces `failed = 0` and `success = true` for B. -/
theorem c4_counterexample :
    bucketAt testsX4 0 = [(0, 0, 0), (1, 0, 0)] ∧
    isFailedO (outcomeOf botX4 testsX4 (0, 0, 0)) = true ∧
    isPassedO (outcomeOf botX4 testsX4 (1, 0, 0)) = true ∧
    ((runTestsParallel botX4 testsX4).getD ([], [])).2.getD 1 dfltResult =
      ⟨"B", 1, 1, false⟩ ∧
    (runTestsParallel botX4 testsX4).isSome = true := by
  refine ⟨by decide, by decide, by decide, by decide, by decide⟩

/-- C4 witness input: as `testsX4` but test B has only its passing
assertion at the shared tick. -/
def testsV4 : List (TestSpec × Pos3) :=
  [(⟨"A", none, [⟨[0], .assert [⟨(0, 0, 0), "stone"⟩]⟩], ((0, 0, 0), (1, 1, 1))⟩,
    (0, 0, 0)),
   (⟨"B", none, [⟨[0], .assert [⟨(0, 0, 0), "stone"⟩]⟩], ((0, 0, 0), (1, 1, 1))⟩,
    (10, 0, 0))]

/-- The completed tick phase of the C4 witness run. -/
def stPairV4 : List (Nat × Nat) × List (List Cmd) :=
  (tickSegs botX4 testsV4).getD ([], [])

/-- Witness for `c4_per_test_isolation` on the two-test scenario where A
fails at the shared tick and B passes everywhere. -/
theorem c4_per_test_isolation_witness :
    tickSegs botX4 testsV4 = some (stPairV4.1, stPairV4.2) ∧
    (1 ≤ ((buildResults testsV4 stPairV4.1).getD 0 dfltResult).failed ∧
      ((buildResults testsV4 stPairV4.1).getD 0 dfltResult).success = false ∧
      ((buildResults testsV4 stPairV4.1).getD 1 dfltResult).failed = 0 ∧
      ((buildResults testsV4 stPairV4.1).getD 1 dfltResult).success = true) := by
  have h : tickSegs botX4 testsV4 = some (stPairV4.1, stPairV4.2) := by rfl
  have hmain := c4_per_test_isolation botX4 testsV4 stPairV4.1 stPairV4.2 h 0 1
    (by decide) (by decide) (by decide) (by decide)
  exact ⟨h, hmain.2⟩

/-- C5 (amended): in every completed run the trace is exactly the pre-run
cleanup fills (one per test, in test order), the freeze, the tick segments,
the unfreeze, and the post-run cleanup fills (one per test) — so each
test's cleanup command is issued once before any timeline action and once
after the final tick, independent of assertion outcomes; a test whose
cleanup command appears once in the per-test fill list has it in the trace
exactly twice plus however many identical fill commands the timeline
actions themselves emit. -/
theorem c5_cleanup_twice (bot : Backend) (tests : List (TestSpec × Pos3))
    (st : List (Nat × Nat)) (segs : List (List Cmd))
    (h : tickSegs bot tests = some (st, segs))
    (tp : TestSpec × Pos3)
    (huniq : (tests.map cleanCmd).count (cleanCmd tp) = 1) :
    runTestsParallel bot tests =
      some (tests.map cleanCmd ++ [Cmd.tickFreeze] ++ segs.flatten ++
        [Cmd.tickUnfreeze] ++ tests.map cleanCmd, buildResults tests st) ∧
    (tests.map cleanCmd ++ [Cmd.tickFreeze] ++ segs.flatten ++
      [Cmd.tickUnfreeze] ++ tests.map cleanCmd).count (cleanCmd tp) =
      2 + segs.flatten.count (cleanCmd tp) := by
  refine ⟨by rw [runTestsParallel, h], ?_⟩
  have h1 : List.count (cleanCmd tp) [Cmd.tickFreeze] = 0 := by
    rw [List.count_eq_zero]
    intro hm
    simp at hm
    simp [cleanCmd] at hm
  have h2 : List.count (cleanCmd tp) [Cmd.tickUnfreeze] = 0 := by
    rw [List.count_eq_zero]
    intro hm
    simp at hm
    simp [cleanCmd] at hm
  rw [List.count_append, List.count_append, List.count_append, List.count_append,
    huniq, h1, h2]
  omega

/-- C5 counterexample input: the own timeline of the test fills its cleanup
region with air at tick 0, producing a third occurrence of the identical
cleanup command. -/
def tpX5 : TestSpec × Pos3 :=
  (⟨"C", none, [⟨[0], .fill ((0, 0, 0), (1, 1, 1)) "air"⟩], ((0, 0, 0), (1, 1, 1))⟩,
    (0, 0, 0))

/-- Backend for the C5 counterexample. -/
def botX5 : Backend := ⟨fun _ => none⟩

/-- C5, counterexample: a completed run whose trace holds the cleanup
fill-air command of the test three times, not exactly twice — the own
`Fill` action of the timeline emits the identical command mid-run. -/
theorem c5_counterexample :
    (runTestsParallel botX5 [tpX5]).isSome = true ∧
    ((runTestsParallel botX5 [tpX5]).getD ([], [])).1.count (cleanCmd tpX5) = 3 := by
  refine ⟨by decide, by decide⟩

/-- C5 witness input: a single test whose timeline never emits its cleanup
command. -/
def tpW5 : TestSpec × Pos3 :=
  (⟨"w5", none, [⟨[0], .place (0, 0, 0) "stone"⟩], ((0, 0, 0), (2, 2, 2))⟩, (0, 0, 0))

/-- Witness backend for `c5_cleanup_twice`. -/
def botW5 : Backend := ⟨fun _ => none⟩

/-- The completed tick phase of the C5 witness run. -/
def stPairW5 : List (Nat × Nat) × List (List Cmd) :=
  (tickSegs botW5 [tpW5]).getD ([], [])

/-- Witness for `c5_cleanup_twice` on the single-test run. -/
theorem c5_cleanup_twice_witness :
    tickSegs botW5 [tpW5] = some (stPairW5.1, stPairW5.2) ∧
    ([tpW5].map cleanCmd ++ [Cmd.tickFreeze] ++ stPairW5.2.flatten ++
      [Cmd.tickUnfreeze] ++ [tpW5].map cleanCmd).count (cleanCmd tpW5) =
      2 + stPairW5.2.flatten.count (cleanCmd tpW5) := by
  have h : tickSegs botW5 [tpW5] = some (stPairW5.1, stPairW5.2) := by rfl
  exact ⟨h, (c5_cleanup_twice botW5 [tpW5] stPairW5.1 stPairW5.2 h tpW5
    (by decide)).2⟩

/-- When every earlier check passes and one check queries an absent block,
the `Assert` entry fails with the diagnostic naming the position of that
check, its expected identifier, and `None`. -/
lemma assertLoop_first_none {bot : Backend} {offset : Pos3} :
    ∀ (pre : List BlockCheck) (c : BlockCheck) (post : List BlockCheck),
      (∀ c' ∈ pre,
        assertCheckSuccess c'.is (bot.get_block (apply_offset c'.pos offset)) = true) →
      bot.get_block (apply_offset c.pos offset) = none →
      assertLoop bot offset (pre ++ c :: post) =
        .failed (assertFailMsg c.pos c.is none)
  | [], c, post, hpre, hnone => by
    simp [assertLoop, hnone, assertCheckSuccess]
  | c' :: pre, c, post, hpre, hnone => by
    have hc' := hpre c' (List.mem_cons_self c' pre)
    simp only [List.cons_append, assertLoop, hc', if_true]
    exact assertLoop_first_none pre c post
      (fun x hx => hpre x (List.mem_cons_of_mem c' hx)) hnone

/-- C10: a `None` answer from `get_block` can never satisfy a check, for
any expected identifier; an `Assert` entry whose first failing check
queried an absent block yields a recorded failure whose diagnostic names
the position, the expected identifier and `None`, sending no command; and
the scheduler treats any failed outcome by incrementing only the owning
test's failed counter and continuing — it never aborts on an assertion
failure. -/
theorem c10_absent_block_assert :
    (∀ expected : String, assertCheckSuccess expected none = false) ∧
    (∀ (bot : Backend) (ats : List Nat) (value_idx : Nat) (offset : Pos3)
        (pre post : List BlockCheck) (c : BlockCheck),
        (∀ c' ∈ pre,
          assertCheckSuccess c'.is (bot.get_block (apply_offset c'.pos offset)) = true) →
        bot.get_block (apply_offset c.pos offset) = none →
        executeAction bot ⟨ats, .assert (pre ++ c :: post)⟩ value_idx offset =
          (.failed (assertFailMsg c.pos c.is none), [])) ∧
    (∀ (bot : Backend) (tests : List (TestSpec × Pos3)) (q : Nat × Nat × Nat)
        (st : List (Nat × Nat)),
        isFailedO (outcomeOf bot tests q) = true → q.1 < st.length →
        stepEntry bot tests q st ≠ none ∧
        (∀ st' cmds, stepEntry bot tests q st = some (st', cmds) →
          st'.getD q.1 (0, 0) =
            ((st.getD q.1 (0, 0)).1, (st.getD q.1 (0, 0)).2 + 1) ∧
          ∀ j, j ≠ q.1 → st'.getD j (0, 0) = st.getD j (0, 0))) := by
  refine ⟨fun expected => rfl, ?_, ?_⟩
  · intro bot ats value_idx offset pre post c hpre hnone
    show (assertLoop bot offset (pre ++ c :: post), []) = _
    rw [assertLoop_first_none pre c post hpre hnone]
  · intro bot tests q st hfail hq1
    constructor
    · intro hn
      rw [stepEntry_none_iff] at hn
      rw [hn] at hfail
      simp [isFailedO] at hfail
    · intro st' cmds hst
      have hstate := stepEntry_state_spec hst
      rcases hout : outcomeOf bot tests q with _ | _ | msg | _ <;> rw [hout] at hstate
      · rw [hout] at hfail
        simp [isFailedO] at hfail
      · rw [hout] at hfail
        simp [isFailedO] at hfail
      · have hbf : st' = bumpFailed st q.1 := by
          rw [hstate]
          rfl
        subst hbf
        refine ⟨by rw [bumpFailed, getD_set_self hq1], ?_⟩
        intro j hj
        rw [bumpFailed, getD_set_ne (fun he => hj he.symm)]
      · rw [hout] at hfail
        simp [isFailedO] at hfail

/-- Witness input for `c10_absent_block_assert`. -/
def testsW10 : List (TestSpec × Pos3) :=
  [(⟨"w10", none, [⟨[0], .assert [⟨(1, 2, 3), "stone"⟩]⟩], ((0, 0, 0), (1, 1, 1))⟩,
    (0, 0, 0))]

/-- Witness for `c10_absent_block_assert`: against an all-absent world, the
single check fails with the `None` diagnostic and the scheduler does not
abort. -/
theorem c10_absent_block_assert_witness :
    assertCheckSuccess "stone" none = false ∧
    executeAction ⟨fun _ => none⟩ ⟨[0], .assert [⟨(1, 2, 3), "stone"⟩]⟩ 0 (0, 0, 0) =
      (.failed (assertFailMsg (1, 2, 3) "stone" none), []) ∧
    stepEntry ⟨fun _ => none⟩ testsW10 (0, 0, 0) [(0, 0)] ≠ none :=
  ⟨c10_absent_block_assert.1 "stone",
    c10_absent_block_assert.2.1 ⟨fun _ => none⟩ [0] 0 (0, 0, 0) [] []
      ⟨(1, 2, 3), "stone"⟩ (by simp) rfl,
    (c10_absent_block_assert.2.2 ⟨fun _ => none⟩ testsW10 (0, 0, 0) [(0, 0)]
      (by decide) (by decide)).1⟩

/-- Witness for `c1_bucket_ordering` at the two-test input and tick 0. -/
theorem c1_bucket_ordering_witness :
    List.Pairwise entryLt (bucketAt testsX4 0) ∧
    bucketAt testsX4 0 = bucketAt testsX4 0 :=
  ⟨(c1_bucket_ordering testsX4 0).1, (c1_bucket_ordering testsX4 0).2.2 testsX4 rfl⟩
